import Mathlib

/-!
Shallow embedding of the core of the `adgm-corporate-agent` document pipeline
(`src/processor/type_detector.py`, `src/processor/redflag_rules.py`,
`src/processor/rag.py`, `src/processor/docx_processor.py`,
`src/utils/docx_comment_helper.py`, `src/utils/reporter.py`).

Python strings are modelled as `List Char` (ASCII inputs; `str.lower`,
`str.isupper`, `\s`, `\w`, `\d` are modelled on their ASCII fragment, which is
what every keyword table and every claim input uses).  Python floats are
modelled as exact rationals `ℚ`; every weight appearing in the source is a
small decimal and no claim rides on a floating-point rounding boundary.
File I/O and the network capabilities are modelled as explicit environment
records; exceptions become `Except`/`Option` values.
-/

namespace ADGM

/-- Characters of a string literal.  All Python strings are embedded as
`List Char` via this helper. -/
def S (s : String) : List Char := s.data

/-- Python whitespace for `str.strip`, `str.split` and the regex class `\s`
(ASCII fragment): space, tab, newline, carriage return, vertical tab,
form feed. -/
def isSpaceC (c : Char) : Bool :=
  c == ' ' || c == '\t' || c == '\n' || c == '\r' || c == '\x0b' || c == '\x0c'

/-- Python `str.lower()` (ASCII fragment, mirroring `Char.toLower`). -/
def toLowerL (l : List Char) : List Char := l.map Char.toLower

/-- Python `str.strip()`: drop leading and trailing whitespace. -/
def stripL (l : List Char) : List Char :=
  ((l.dropWhile isSpaceC).reverse.dropWhile isSpaceC).reverse

/-- Worker for `collapseWs`; the boolean remembers whether the previous kept
character was the space that replaced a whitespace run. -/
def collapseWsAux : Bool → List Char → List Char
  | _, [] => []
  | prevSpace, c :: rest =>
    if isSpaceC c then
      if prevSpace then collapseWsAux true rest
      else ' ' :: collapseWsAux true rest
    else c :: collapseWsAux false rest

/-- Python `re.sub(r'\s+', ' ', s)`: collapse every maximal whitespace run to
a single space (used by `detect_doc_type` to normalise text). -/
def collapseWs (l : List Char) : List Char := collapseWsAux false l

/-- Boolean list-prefix test (written out to keep the development
self-contained). -/
def leadsWith : List Char → List Char → Bool
  | [], _ => true
  | _ :: _, [] => false
  | a :: as, b :: bs => a == b && leadsWith as bs

/-- Python substring containment `needle in hay`. -/
def containsSub (needle : List Char) : List Char → Bool
  | [] => leadsWith needle []
  | c :: rest => leadsWith needle (c :: rest) || containsSub needle rest

/-- Worker for `wordsWs`, accumulating the current word reversed. -/
def wordsAux : List Char → List Char → List (List Char)
  | cur, [] => if cur == [] then [] else [cur.reverse]
  | cur, c :: rest =>
    if isSpaceC c then
      if cur == [] then wordsAux [] rest else cur.reverse :: wordsAux [] rest
    else wordsAux (c :: cur) rest

/-- Python `str.split()` with no arguments: split on whitespace runs,
dropping empty pieces. -/
def wordsWs (l : List Char) : List (List Char) := wordsAux [] l

/-- Worker for `splitOnChar`. -/
def splitOnCharAux (sep : Char) : List Char → List Char → List (List Char)
  | cur, [] => [cur.reverse]
  | cur, c :: rest =>
    if c == sep then cur.reverse :: splitOnCharAux sep [] rest
    else splitOnCharAux sep (c :: cur) rest

/-- Python `str.split(sep)` for a one-character separator (keeps empty
pieces). -/
def splitOnChar (sep : Char) (l : List Char) : List (List Char) :=
  splitOnCharAux sep [] l

/-- Python `text.split('\n')`. -/
def splitNl (l : List Char) : List (List Char) := splitOnChar '\n' l

/-- Python `'\n'.join(pieces)`. -/
def joinNl : List (List Char) → List Char
  | [] => []
  | [x] => x
  | x :: y :: rest => x ++ '\n' :: joinNl (y :: rest)

/-- Decimal rendering of a natural number, for Python f-strings such as
`f"Line {i+1}"`. -/
def natToChars (n : Nat) : List Char := (Nat.repr n).data

/-- Regex word character `\w` (ASCII fragment). -/
def isWordC (c : Char) : Bool := c.isAlpha || c.isDigit || c == '_'

/-- Word-character test on an optional character; the ends of the haystack
count as non-word. -/
def isWordO : Option Char → Bool
  | none => false
  | some c => isWordC c

/-- Regex word boundary `\b` between two (optional) adjacent characters:
exactly one side is a word character. -/
def boundB (l r : Option Char) : Bool := isWordO l != isWordO r

/-- Python `re.search(r'\b<phrase>\b', hay) is not None` for a literal
phrase: the phrase occurs somewhere with a word boundary on each side. -/
def searchBounded (phrase hay : List Char) : Bool :=
  (List.range (hay.length + 1)).any fun i =>
    ((hay.drop i).take phrase.length == phrase)
      && boundB ((hay.take i).getLast?) phrase.head?
      && boundB phrase.getLast? ((hay.drop (i + phrase.length)).head?)

/-- Python `re.search(r'\b\d{1,2}<sep>\d{1,2}<sep>\d{2,4}\b', hay) is not
None`.  `re` backtracks over all digit-run lengths, so existence of a match
is an existential over the run lengths. -/
def dateSepSearch (sep : Char) (hay : List Char) : Bool :=
  (List.range (hay.length + 1)).any fun i =>
    [1, 2].any fun a => [1, 2].any fun b => [2, 3, 4].any fun c =>
      let n := a + 1 + b + 1 + c
      let seg := (hay.drop i).take n
      seg.length == n
        && (seg.take a).all (·.isDigit)
        && (seg.drop a).head? == some sep
        && ((seg.drop (a + 1)).take b).all (·.isDigit)
        && (seg.drop (a + 1 + b)).head? == some sep
        && (seg.drop (a + 1 + b + 1)).all (·.isDigit)
        && boundB ((hay.take i).getLast?) seg.head?
        && boundB seg.getLast? ((hay.drop (i + n)).head?)

/-- Python `os.path.basename` for forward-slash paths. -/
def basename (p : List Char) : List Char := (splitOnChar '/' p).getLastD []

/-! ## Type detector (`src/processor/type_detector.py`) -/

/-- One entry of `DOCUMENT_PATTERNS`. -/
structure PatternSet where
  primary_keywords : List (List Char)
  secondary_keywords : List (List Char)
  exclusion_keywords : List (List Char)
  structure_indicators : List (List Char)
  confidence_threshold : ℚ

/-- The `"Articles of Association"` entry of `DOCUMENT_PATTERNS` (named so
theorems can refer to it). -/
def aoa_patterns : PatternSet :=
  ⟨[S "articles of association", S "articles of incorporation"],
   [S "share capital", S "directors", S "shareholders", S "company constitution"],
   [S "memorandum"],
   [S "article 1", S "article 2", S "clause"], 3/5⟩

/-- The `DOCUMENT_PATTERNS` table, in Python dict insertion order. -/
def DOCUMENT_PATTERNS : List ((List Char) × PatternSet) :=
  [(S "Articles of Association", aoa_patterns),
   (S "Memorandum of Association",
    ⟨[S "memorandum of association", S "memorandum of incorporation"],
     [S "company name", S "registered office", S "objects", S "liability"],
     [S "articles"],
     [S "whereas", S "now therefore"], 3/5⟩),
   (S "UBO Declaration",
    ⟨[S "ultimate beneficial owner", S "ubo declaration", S "beneficial ownership"],
     [S "25%", S "twenty-five percent", S "ownership", S "control"],
     [],
     [S "declare", S "confirm", S "certify"], 1/2⟩),
   (S "Register of Members and Directors",
    ⟨[S "register of members", S "register of directors", S "members register"],
     [S "shareholder", S "director", S "appointment", S "resignation"],
     [],
     [S "name", S "address", S "shares held", S "date of appointment"], 1/2⟩),
   (S "Incorporation Application",
    ⟨[S "incorporation application", S "application for incorporation", S "company formation"],
     [S "proposed name", S "business activity", S "applicant"],
     [],
     [S "applicant details", S "proposed activities"], 1/2⟩),
   (S "Board Resolution",
    ⟨[S "board resolution", S "directors' resolution", S "board meeting"],
     [S "resolved", S "directors", S "meeting", S "unanimous"],
     [S "shareholder"],
     [S "it was resolved", S "resolved that", S "meeting held"], 1/2⟩),
   (S "Shareholder Resolution",
    ⟨[S "shareholder resolution", S "shareholders' resolution", S "general meeting"],
     [S "resolved", S "shareholders", S "meeting", S "ordinary resolution"],
     [S "board", S "directors"],
     [S "it was resolved", S "resolved that", S "meeting held"], 1/2⟩),
   (S "Employment Contract",
    ⟨[S "employment contract", S "employment agreement", S "service agreement"],
     [S "employee", S "employer", S "salary", S "termination", S "duties"],
     [],
     [S "terms of employment", S "job description", S "remuneration"], 1/2⟩),
   (S "Commercial License Application",
    ⟨[S "commercial license", S "license application", S "business license"],
     [S "trade name", S "business activity", S "premises"],
     [],
     [S "license details", S "business activities"], 1/2⟩),
   (S "Power of Attorney",
    ⟨[S "power of attorney", S "poa", S "attorney"],
     [S "appoint", S "attorney", S "behalf", S "authorize"],
     [],
     [S "hereby appoint", S "full power", S "in witness whereof"], 1/2⟩),
   (S "Lease Agreement",
    ⟨[S "lease agreement", S "tenancy agreement", S "rental agreement"],
     [S "landlord", S "tenant", S "premises", S "rent", S "lease term"],
     [],
     [S "lease term", S "rental amount", S "premises description"], 1/2⟩),
   (S "Non-Disclosure Agreement",
    ⟨[S "non-disclosure agreement", S "nda", S "confidentiality agreement"],
     [S "confidential", S "proprietary", S "disclosure", S "information"],
     [],
     [S "confidential information", S "non-disclosure"], 1/2⟩)]

/-- `_calculate_confidence(text, patterns)`: weighted keyword hits, a bonus
for more than one primary hit, an exclusion penalty, normalised by the total
possible weight and clamped to `[0, 1]`.  The Python float weights 0.5, 0.1,
0.15, 0.2 are the exact rationals used here. -/
def calculate_confidence (text : List Char) (p : PatternSet) : ℚ :=
  let primary_found := (p.primary_keywords.filter (fun k => containsSub k text)).length
  let secondary_found := (p.secondary_keywords.filter (fun k => containsSub k text)).length
  let structure_found := (p.structure_indicators.filter (fun k => containsSub k text)).length
  let exclusion_found := (p.exclusion_keywords.filter (fun k => containsSub k text)).length
  let score : ℚ := (primary_found : ℚ) * (1/2)
      + (if 1 < primary_found then (1/10 : ℚ) else 0)
      + (secondary_found : ℚ) * (1/10)
      + (structure_found : ℚ) * (3/20)
      - (exclusion_found : ℚ) * (1/5)
  let total_possible : ℚ := (p.primary_keywords.length : ℚ) * (1/2)
      + (p.secondary_keywords.length : ℚ) * (1/10)
      + (p.structure_indicators.length : ℚ) * (3/20)
  let confidence : ℚ := if 0 < total_possible then min (score / total_possible) 1 else 0
  max confidence 0

/-- The `legal_indicators` table of `_fallback_detection`. -/
def legal_indicators : List ((List Char) × (List Char)) :=
  [(S "contract", S "Contract"), (S "agreement", S "Agreement"),
   (S "resolution", S "Resolution"), (S "application", S "Application"),
   (S "declaration", S "Declaration"), (S "certificate", S "Certificate"),
   (S "notice", S "Notice"), (S "policy", S "Policy"),
   (S "procedure", S "Procedure"), (S "form", S "Form")]

/-- `_fallback_detection(text)`: lexical scan for generic legal nouns, then a
word-count bucket. -/
def fallback_detection (text : List Char) : List Char :=
  match legal_indicators.find? (fun pr => containsSub pr.1 text) with
  | some pr => S "General " ++ pr.2
  | none =>
    let wc := (wordsWs text).length
    if wc < 100 then S "Short Form/Notice"
    else if 2000 < wc then S "Complex Legal Document"
    else S "Standard Business Document"

/-- Ordering used by `detected_types.sort(key=lambda x: x[1], reverse=True)`:
descending confidence.  `List.insertionSort` with this relation is a stable
descending sort, matching Python's stable `list.sort`. -/
def confGe (a b : (List Char) × ℚ) : Prop := b.2 ≤ a.2

instance : DecidableRel confGe := fun a b => inferInstanceAs (Decidable (b.2 ≤ a.2))

instance : IsTotal ((List Char) × ℚ) confGe := ⟨fun a b => le_total b.2 a.2⟩

instance : IsTrans ((List Char) × ℚ) confGe := ⟨fun _ _ _ h1 h2 => le_trans h2 h1⟩

/-- `detect_doc_type(text, return_confidence=True)`: `(type, confidence)`
pairs above their threshold, sorted by descending confidence, with the
fallback pair at confidence 0.3 when nothing qualifies, and the fixed
`("Unknown", 0.0)` answer for empty/whitespace-only input. -/
def detect_doc_type_scored (text : List Char) : List ((List Char) × ℚ) :=
  if stripL text == [] then [(S "Unknown", 0)]
  else
    let tn := collapseWs (toLowerL text)
    let detected := DOCUMENT_PATTERNS.filterMap fun pr =>
      let c := calculate_confidence tn pr.2
      if pr.2.confidence_threshold ≤ c then some (pr.1, c) else none
    let sorted := List.insertionSort confGe detected
    if sorted == [] then [(fallback_detection tn, 3/10)] else sorted

/-- `detect_doc_type(text)` with `return_confidence=False`: type names only.
In this mode the Python code never sorts, so the names stay in
`DOCUMENT_PATTERNS` declaration order. -/
def detect_doc_type_names (text : List Char) : List (List Char) :=
  if stripL text == [] then [S "Unknown"]
  else
    let tn := collapseWs (toLowerL text)
    let detected := DOCUMENT_PATTERNS.filterMap fun pr =>
      if pr.2.confidence_threshold ≤ calculate_confidence tn pr.2 then some pr.1 else none
    if detected == [] then [fallback_detection tn] else detected

/-! ## Red-flag rule engine (`src/processor/redflag_rules.py`) -/

/-- One issue record produced by the rule engine (dict keys `issue`,
`severity`, `suggestion`, `section`). -/
structure Issue where
  issue : List Char
  severity : List Char
  suggestion : List Char
  sectionLabel : List Char
deriving DecidableEq

/-- Python `str.isupper()` (ASCII fragment): at least one letter and no
lowercase letter. -/
def pyIsUpper (l : List Char) : Bool :=
  l.any (fun c => c.isAlpha) && l.all (fun c => !c.isLower)

/-- The header test of `_find_section_with_text`: an ALL-CAPS line, a line
starting with `Section` or `Article`, or a line ending in `:`. -/
def header_like (line : List Char) : Bool :=
  pyIsUpper line || leadsWith (S "Section") line || leadsWith (S "Article") line
    || line.getLast? == some ':'

/-- `_find_section_with_text(text, search_term)`: first line containing the
term (case-insensitively); scan up to 5 preceding lines for a header; else
`"Line N"`; else `"General"`. -/
def find_section_with_text (text term : List Char) : List Char :=
  let lines := splitNl text
  match lines.findIdx? (fun line => containsSub (toLowerL term) (toLowerL line)) with
  | none => S "General"
  | some i =>
    match (List.range' (i - 5) (i - (i - 5))).findSome? (fun j =>
        match lines.get? j with
        | some lj =>
          if stripL lj != [] && header_like lj then some (stripL lj) else none
        | none => none) with
    | some h => h
    | none => S "Line " ++ natToChars (i + 1)

/-- `_check_jurisdiction(text, text_lower)`. -/
def check_jurisdiction (text textLower : List Char) : List Issue :=
  (if searchBounded (S "uae federal court") textLower then
    [⟨S "References UAE Federal Courts instead of ADGM Courts", S "High",
      S "Replace with \"ADGM Courts\" for proper jurisdiction",
      find_section_with_text text (S "uae federal court")⟩]
   else [])
  ++ (if searchBounded (S "dubai court") textLower then
    [⟨S "References Dubai Courts instead of ADGM Courts", S "High",
      S "Update jurisdiction to ADGM Courts",
      find_section_with_text text (S "dubai court")⟩]
   else [])
  ++ (if containsSub (S "jurisdiction") textLower
        && !searchBounded (S "adgm court") textLower then
    [⟨S "Jurisdiction clause present but does not specify ADGM Courts", S "High",
      S "Specify ADGM Courts as the governing jurisdiction",
      find_section_with_text text (S "jurisdiction")⟩]
   else [])
  ++ (if searchBounded (S "uae civil code") textLower
        && !searchBounded (S "adgm") textLower then
    [⟨S "References UAE Civil Code without ADGM context", S "Medium",
      S "Specify ADGM laws take precedence where applicable",
      find_section_with_text text (S "uae civil code")⟩]
   else [])

/-- The `signature_patterns` list of `_check_signatures`, each matched as
`\b...\b`. -/
def signature_patterns : List (List Char) :=
  [S "signature", S "signed by", S "for and on behalf", S "executed",
   S "in witness whereof"]

/-- `_check_signatures(text, text_lower)`. -/
def check_signatures (text textLower : List Char) : List Issue :=
  (if !(signature_patterns.any (fun p => searchBounded p textLower)) then
    [⟨S "Missing signature block or execution clause", S "High",
      S "Add proper signature block with name, title, and date fields",
      S "End of document"⟩]
   else [])
  ++ (if (containsSub (S "deed") textLower
          || containsSub (S "power of attorney") textLower)
        && !containsSub (S "witness") textLower then
    [⟨S "Document may require witness signature", S "Medium",
      S "Consider adding witness signature requirements",
      find_section_with_text text (S "signature")⟩]
   else [])

/-- `_check_articles_of_association(text, text_lower)`. -/
def check_articles_of_association (text textLower : List Char) : List Issue :=
  if !containsSub (S "articles of association") textLower then []
  else
    (if !containsSub (S "share capital") textLower
        && !containsSub (S "shares") textLower then
      [⟨S "Missing share capital provisions in Articles of Association", S "High",
        S "Add clause specifying authorized share capital and classes of shares",
        S "Share Capital"⟩]
     else [])
    ++ (if !containsSub (S "director") textLower then
      [⟨S "Missing directors provisions", S "High",
        S "Add provisions for appointment and powers of directors",
        S "Directors"⟩]
     else [])
    ++ (if !containsSub (S "objects") textLower
          && !containsSub (S "purpose") textLower then
      [⟨S "Missing company objects or purpose clause", S "Medium",
        S "Include clause defining company objects and permitted activities",
        S "Company Objects"⟩]
     else [])

/-- `_check_memorandum_of_association(text, text_lower)`. -/
def check_memorandum_of_association (text textLower : List Char) : List Issue :=
  if !containsSub (S "memorandum of association") textLower then []
  else
    (if !(searchBounded (S "llc") textLower || searchBounded (S "limited") textLower
          || searchBounded (S "ltd") textLower) then
      [⟨S "Company name may not include proper legal designation", S "Medium",
        S "Ensure company name includes LLC, Limited, or Ltd as appropriate",
        S "Company Name"⟩]
     else [])
    ++ (if !containsSub (S "registered office") textLower
          && !containsSub (S "registered address") textLower then
      [⟨S "Missing registered office clause", S "High",
        S "Include registered office address in ADGM",
        S "Registered Office"⟩]
     else [])

/-- The per-UBO personal-data fields checked by `_check_ubo_declaration`. -/
def ubo_required_fields : List (List Char) :=
  [S "full name", S "address", S "nationality", S "date of birth"]

/-- `_check_ubo_declaration(text, text_lower)`. -/
def check_ubo_declaration (text textLower : List Char) : List Issue :=
  if !containsSub (S "ultimate beneficial owner") textLower
      && !containsSub (S "ubo") textLower then []
  else
    (if !(searchBounded (S "25%") textLower
          || searchBounded (S "twenty-five percent") textLower
          || searchBounded (S "twenty five percent") textLower) then
      [⟨S "Missing 25% ownership threshold reference", S "Medium",
        S "Specify 25% ownership threshold for UBO determination",
        S "Ownership Threshold"⟩]
     else [])
    ++ ubo_required_fields.filterMap (fun field =>
        if !containsSub field textLower then
          some ⟨S "May be missing " ++ field ++ S " field for UBO", S "Medium",
                S "Ensure " ++ field ++ S " is included for each UBO",
                S "UBO Information"⟩
        else none)

/-- The `required_elements` table of `_check_incorporation_application`. -/
def incorporation_required_elements : List ((List Char) × (List Char)) :=
  [(S "proposed company name", S "Company Name"),
   (S "business activity", S "Business Activity"),
   (S "share capital", S "Share Capital"),
   (S "registered office", S "Registered Office")]

/-- `_check_incorporation_application(text, text_lower)`. -/
def check_incorporation_application (text textLower : List Char) : List Issue :=
  if !containsSub (S "incorporation") textLower
      && !containsSub (S "application") textLower then []
  else
    incorporation_required_elements.filterMap fun pr =>
      if !containsSub pr.1 textLower then
        some ⟨S "Missing " ++ pr.1 ++ S " in incorporation application", S "High",
              S "Include " ++ pr.1 ++ S " details in the application", pr.2⟩
      else none

/-- `_check_document_specific_issues(text, text_lower, doc_type)`. -/
def check_document_specific_issues (text textLower docType : List Char) : List Issue :=
  let dtl := toLowerL docType
  if containsSub (S "articles of association") dtl then
    check_articles_of_association text textLower
  else if containsSub (S "memorandum of association") dtl then
    check_memorandum_of_association text textLower
  else if containsSub (S "ubo") dtl then
    check_ubo_declaration text textLower
  else if containsSub (S "incorporation") dtl then
    check_incorporation_application text textLower
  else []

/-- The four type-specific checks run when no document type is supplied. -/
def check_all_document_types (text textLower : List Char) : List Issue :=
  check_articles_of_association text textLower
  ++ check_memorandum_of_association text textLower
  ++ check_ubo_declaration text textLower
  ++ check_incorporation_application text textLower

/-- The `compliance_terms` list of `_check_adgm_compliance`. -/
def compliance_terms : List (List Char) :=
  [S "compliant", S "compliance", S "regulatory", S "regulation"]

/-- `_check_adgm_compliance(text, text_lower)`. -/
def check_adgm_compliance (text textLower : List Char) : List Issue :=
  (if !containsSub (S "adgm") textLower
      && !containsSub (S "abu dhabi global market") textLower then
    [⟨S "Document does not reference ADGM jurisdiction", S "Medium",
      S "Include reference to ADGM (Abu Dhabi Global Market) jurisdiction",
      S "General"⟩]
   else [])
  ++ (if (searchBounded (S "usd") textLower || searchBounded (S "us dollar") textLower)
        && !containsSub (S "aed") textLower then
    [⟨S "References USD without AED alternative", S "Low",
      S "Consider including AED (UAE Dirham) as alternative currency",
      find_section_with_text text (S "USD")⟩]
   else [])
  ++ (if 200 < (wordsWs text).length
        && !(compliance_terms.any (fun t => containsSub t textLower)) then
    [⟨S "Document lacks compliance or regulatory references", S "Low",
      S "Consider adding compliance statements relevant to ADGM regulations",
      S "General"⟩]
   else [])

/-- The `ambiguous_phrases` table of `_check_language_and_formatting`. -/
def ambiguous_phrases : List ((List Char) × (List Char)) :=
  [(S "may or may not", S "Use definitive language instead of ambiguous terms"),
   (S "as appropriate", S "Specify exact conditions or requirements"),
   (S "if necessary", S "Define when such necessity arises"),
   (S "reasonable", S "Define what constitutes reasonable in this context")]

/-- The literal source text of the slash date regex, passed verbatim to
`_find_section_with_text` by the Python code. -/
def slash_date_pattern_chars : List Char :=
  S "\\b\\d\x7b1,2\x7d/\\d\x7b1,2\x7d/\\d\x7b2,4\x7d\\b"

/-- The literal source text of the dash date regex. -/
def dash_date_pattern_chars : List Char :=
  S "\\b\\d\x7b1,2\x7d-\\d\x7b1,2\x7d-\\d\x7b2,4\x7d\\b"

/-- `_check_language_and_formatting(text, text_lower)`. -/
def check_language_and_formatting (text textLower : List Char) : List Issue :=
  (ambiguous_phrases.filterMap fun pr =>
    if containsSub pr.1 textLower then
      some ⟨S "Ambiguous language detected: \"" ++ pr.1 ++ S "\"", S "Low", pr.2,
            find_section_with_text text pr.1⟩
    else none)
  ++ (if !containsSub (S "shall") textLower && containsSub (S "will") textLower then
    [⟨S "Uses \"will\" instead of \"shall\" for obligations", S "Low",
      S "Use \"shall\" for legal obligations and \"will\" for future actions",
      S "General"⟩]
   else [])
  ++ (if !containsSub (S "definition") textLower && !containsSub (S "means") textLower
        && 500 < (wordsWs text).length then
    [⟨S "Long document may benefit from definitions section", S "Low",
      S "Consider adding a definitions section for key terms",
      S "Structure"⟩]
   else [])
  ++ (if dateSepSearch '/' text then
    [⟨S "Date format may be ambiguous", S "Low",
      S "Use unambiguous date format (e.g., \"1st January 2024\")",
      find_section_with_text text slash_date_pattern_chars⟩]
   else if dateSepSearch '-' text then
    [⟨S "Date format may be ambiguous", S "Low",
      S "Use unambiguous date format (e.g., \"1st January 2024\")",
      find_section_with_text text dash_date_pattern_chars⟩]
   else [])

/-- `run_redflag_checks(text, doc_type=None)`: the check families in the
fixed source order.  A supplied but empty `doc_type` is falsy in Python, so
it runs all four type-specific checks just like `None`. -/
def run_redflag_checks (text : List Char) (doc_type : Option (List Char)) : List Issue :=
  let textLower := toLowerL text
  check_jurisdiction text textLower
  ++ check_signatures text textLower
  ++ (match doc_type with
      | some dt =>
        if dt != [] then check_document_specific_issues text textLower dt
        else check_all_document_types text textLower
      | none => check_all_document_types text textLower)
  ++ check_adgm_compliance text textLower
  ++ check_language_and_formatting text textLower

/-! ## Corpus chunking (`src/processor/rag.py`) -/

/-- Tail matcher for the substitution pattern of `_clean_text`.  The Python
source writes `re.sub(r"\\n\\s*\\n+", "\\n\\n", s)` — a raw string with
doubled backslashes — so the compiled regex matches the literal character
sequence backslash `n` backslash, then any number of literal `s`, then
backslash, then one or more literal `n`.  After the leading backslash-`n`-
backslash has been consumed this matches `'s'* '\' 'n'+` and returns the
remainder.  The runs are forced, so greedy matching has no backtracking. -/
def matchCleanTail (l : List Char) : Option (List Char) :=
  match l.dropWhile (fun c => c == 's') with
  | '\\' :: rest2 =>
    if (rest2.takeWhile (fun c => c == 'n')).length == 0 then none
    else some (rest2.dropWhile (fun c => c == 'n'))
  | _ => none

/-- Leftmost, non-overlapping `re.sub` scan for `_clean_text`.  The
replacement template `"\\n\\n"` holds the four characters backslash `n`
backslash `n`, which `re.sub`'s template processing expands to two newline
characters.  The fuel argument only bounds the recursion: every step
consumes at least one input character, so `fuel = l.length` never runs
out. -/
def cleanSubAux : Nat → List Char → List Char
  | 0, l => l
  | _, [] => []
  | fuel + 1, '\\' :: 'n' :: '\\' :: rest =>
    match matchCleanTail rest with
    | some rest2 => '\n' :: '\n' :: cleanSubAux fuel rest2
    | none => '\\' :: cleanSubAux fuel ('n' :: '\\' :: rest)
  | fuel + 1, c :: rest => c :: cleanSubAux fuel rest

/-- `_clean_text(s)`: the (literal-backslash) substitution followed by
`str.strip()`. -/
def clean_text (s : List Char) : List Char := stripL (cleanSubAux s.length s)

/-- The chunking loop of `_chunk_text`: starting at `start`, emit the window
`text[start : start + size]` and advance by
`max(start + chunk_size - overlap, start + 1)` while `start < len(text)`.
Python's slice clamping and its `max` against `start + 1` (guarding a
non-positive step) carry over verbatim; `start + size - overlap` truncates
at 0 in `Nat`, which agrees with Python because a negative value is always
below `start + 1`.  The fuel argument only bounds the recursion: `start`
advances by at least one per iteration, so any fuel of at least
`len(text) - start` never runs out. -/
def chunksFromAux : Nat → List Char → Nat → Nat → Nat → List (List Char)
  | 0, _, _, _, _ => []
  | fuel + 1, t, size, ov, start =>
    if start < t.length then
      ((t.drop start).take size) ::
        chunksFromAux fuel t size ov (max (start + size - ov) (start + 1))
    else []

/-- `_chunk_text(text, chunk_size, overlap)`: clean, emit the cleaned text
as a single chunk when it fits, else run the greedy window loop. -/
def chunk_text (text : List Char) (chunk_size overlap : Nat) : List (List Char) :=
  let t := clean_text text
  if t.length ≤ chunk_size then [t]
  else chunksFromAux t.length t chunk_size overlap 0

/-- Concatenation of chunks "minus the configured overlap": the first chunk
whole, every later chunk with its first `ov` characters removed. -/
def dejoin (ov : Nat) : List (List Char) → List Char
  | [] => []
  | c :: rest => c ++ (rest.map (fun x => x.drop ov)).flatten

/-! ## Annotation writer (`src/utils/docx_comment_helper.py`)

A docx document is modelled by the parts `add_comment_to_paragraph`
touches: the ordered paragraph list (each paragraph an ordered list of XML
children) and the comments part (an ordered list of comment elements).
`python-docx` computes `paragraph.text` by concatenating the text of the
`w:t` nodes of the paragraph's runs; the reference run inserted by the
source contains only a `w:commentReference` and no `w:t`, so it is a
distinct child constructor carrying no text. -/

/-- A child element of a paragraph's XML node. -/
inductive PChild where
  | run (text : List Char)
  | commentRangeStart (id : Nat)
  | commentRangeEnd (id : Nat)
  | commentRefRun (id : Nat)
deriving DecidableEq

/-- A paragraph: its ordered XML children. -/
structure Para where
  children : List PChild
deriving DecidableEq

/-- A `w:comment` element of the comments part. -/
structure Comment where
  id : Nat
  author : List Char
  initials : List Char
  text : List Char
deriving DecidableEq

/-- The document state visible to the annotation helper. -/
structure DocModel where
  paragraphs : List Para
  comments : List Comment
deriving DecidableEq

/-- Text contributed by one paragraph child (only `w:t` under a run). -/
def childText : PChild → List Char
  | .run t => t
  | _ => []

/-- `paragraph.text` as computed by python-docx. -/
def paraText (p : Para) : List Char := (p.children.map childText).flatten

/-- `_next_comment_id(comments_xml)`: one past the maximum existing id, 0
when no comment exists.  Ids are modelled as naturals (the source parses
them with `int` and skips unparsable ones). -/
def next_comment_id (comments : List Comment) : Nat :=
  if comments.isEmpty then 0
  else (comments.map Comment.id).foldl Nat.max 0 + 1

/-- Replace the element at one index, identity out of bounds. -/
def modifyAt (f : α → α) : Nat → List α → List α
  | _, [] => []
  | 0, a :: as => f a :: as
  | n + 1, a :: as => a :: modifyAt f n as

/-- `add_comment_to_paragraph(doc, paragraph, comment_text)` with the anchor
paragraph given by index: append a new comment element with the freshly
allocated id, insert `commentRangeStart` at position 0 of the paragraph and
append `commentRangeEnd` plus the reference run at its end. -/
def add_comment_to_paragraph (doc : DocModel) (idx : Nat) (comment_text : List Char) : DocModel :=
  let cid := next_comment_id doc.comments
  { paragraphs :=
      modifyAt (fun p =>
        ⟨PChild.commentRangeStart cid ::
          p.children ++ [PChild.commentRangeEnd cid, PChild.commentRefRun cid]⟩)
        idx doc.paragraphs,
    comments := doc.comments ++ [⟨cid, S "Reviewer", S "RV", comment_text⟩] }

/-- The citation value attached to an issue, as `annotate_docx_with_comments`
discriminates it: a dict carrying an `llm_summary` dict (the shape produced
by `get_citation_for_issue`), or anything else rendered via `str`. -/
inductive CitationV where
  | withSummary (citation excerpt : List Char)
  | other (rendered : List Char)
deriving DecidableEq

/-- An issue as seen by the pipeline and the annotation writer: the rule
engine dict plus the `document` tag added by `analyze_single_document` and
the optional post-hoc `citation`.  A Python dict simply missing a key
(`suggestion`, `section`, `document` on some error paths) is modelled by the
empty string, which is how the source reads it back (`issue.get(k, '')`). -/
structure TaggedIssue where
  issue : List Char
  severity : List Char
  suggestion : List Char
  sectionLabel : List Char
  document : List Char
  citation : Option CitationV
deriving DecidableEq

/-- The comment body built for one issue: issue text, optional
`Suggestion:` line and optional `Citation:`/`Excerpt:` lines. -/
def comment_body (issue_text suggestion : List Char) (citation : Option CitationV) : List Char :=
  let b2 := if suggestion != [] then issue_text ++ S "\nSuggestion: " ++ suggestion
            else issue_text
  match citation with
  | none => b2
  | some (.withSummary c e) =>
    let b3 := b2 ++ S "\nCitation: " ++ c
    if e != [] then b3 ++ S "\nExcerpt: " ++ e else b3
  | some (.other s) => b2 ++ S "\nCitation: " ++ s

/-- Anchor selection of `annotate_docx_with_comments`: up to 6 words of the
issue text longer than 3 characters; first paragraph containing any of them
case-insensitively. -/
def anchor_index (doc : DocModel) (issue_text : List Char) : Option Nat :=
  let keywords := ((wordsWs issue_text).filter (fun w => 3 < w.length)).take 6
  doc.paragraphs.findIdx? (fun p =>
    keywords.any (fun kw => containsSub (toLowerL kw) (toLowerL (paraText p))))

/-- One iteration of the issue loop of `annotate_docx_with_comments`.  When
no paragraph matches, the source indexes `doc.paragraphs[-1]`, which raises
`IndexError` on a document with no paragraphs; that exception is the
`.error` case. -/
def annotate_step (doc : DocModel) (i : TaggedIssue) : Except (List Char) DocModel :=
  let body := comment_body i.issue i.suggestion i.citation
  match anchor_index doc i.issue with
  | some idx => .ok (add_comment_to_paragraph doc idx body)
  | none =>
    if doc.paragraphs.isEmpty then .error (S "IndexError: list index out of range")
    else .ok (add_comment_to_paragraph doc (doc.paragraphs.length - 1) body)

/-- `annotate_docx_with_comments(input, output, issues)` on the in-memory
document: process the issues in the order supplied. -/
def annotate_docx_with_comments : DocModel → List TaggedIssue → Except (List Char) DocModel
  | doc, [] => .ok doc
  | doc, i :: rest =>
    match annotate_step doc i with
    | .ok d1 => annotate_docx_with_comments d1 rest
    | .error e => .error e

/-! ## Pipeline (`src/processor/docx_processor.py`, `src/utils/reporter.py`)

The filesystem and the retrieval backend are modelled as environment
records: `FileEnv.readDoc` is `docx.Document(path)` (an `Except` because a
malformed file raises), `FileEnv.saveOk` tells whether `doc.save(path)`
succeeds, and `RagEnv.retrieve` is `rag.get_citation_for_issue` (an
`Except` because a missing key, a network failure or a broken index file
raises). -/

/-- Environment for file reads and writes. -/
structure FileEnv where
  readDoc : List Char → Except (List Char) DocModel
  saveOk : List Char → Bool

/-- Environment for the RAG backend: existence of the two index files and
the (fallible) retrieval call. -/
structure RagEnv where
  indexExists : Bool
  metaExists : Bool
  retrieve : List Char → Except (List Char) CitationV

/-- The `RAGRetriever` wrapper: only the availability flag, computed once at
construction. -/
structure RAGRetriever where
  available : Bool

/-- `RAGRetriever.__init__`: `available = os.path.exists(index_path) and
os.path.exists(meta_path)`. -/
def RAGRetriever.ofEnv (env : RagEnv) : RAGRetriever :=
  ⟨env.indexExists && env.metaExists⟩

/-- `RAGRetriever.get_citation_for_issue`: `None` when unavailable, the
retrieval result otherwise, with every exception of the underlying call
caught and turned into `None`. -/
def RAGRetriever.get_citation_for_issue (r : RAGRetriever) (env : RagEnv)
    (issue : List Char) : Option CitationV :=
  if r.available then
    match env.retrieve issue with
    | .ok c => some c
    | .error _ => none
  else none

/-- `PROCESS_CHECKLISTS`, in Python dict insertion order. -/
def PROCESS_CHECKLISTS : List ((List Char) × List (List Char)) :=
  [(S "Company Incorporation",
    [S "Articles of Association", S "Memorandum of Association",
     S "Incorporation Application", S "UBO Declaration",
     S "Register of Members and Directors"]),
   (S "Commercial Licensing",
    [S "Commercial License Application", S "Business Plan",
     S "Lease Agreement", S "Financial Projections"]),
   (S "Employment Documentation",
    [S "Employment Contract", S "Job Description", S "Salary Certificate"])]

/-- `len(set(types) & set(required))`: each checklist is duplicate-free, so
the intersection cardinality is the number of required documents present
among the detected types. -/
def overlapCount (types required : List (List Char)) : Nat :=
  (required.filter (fun d => types.contains d)).length

/-- `infer_process_from_types(detected_types_list)`: first checklist (in
declaration order) whose overlap with the pooled types reaches
`max(2, len(required_docs) * 0.4)`, else `"Unknown"`.  `0.4` is the exact
rational `2/5`; for the three checklists the Python float threshold and
this rational agree (both reduce to 2 after the `max`). -/
def infer_process_from_types (detected_types_list : List (List Char)) : List Char :=
  match PROCESS_CHECKLISTS.find? (fun pr =>
      (max 2 ((pr.2.length : ℚ) * (2/5)) ≤ (overlapCount detected_types_list pr.2 : ℚ))) with
  | some pr => pr.1
  | none => S "Unknown"

/-- The missing-documents computation of `process_multiple_docx` (lines
123-129): required-but-absent types and the required count, both zero when
the process is not a checklist key. -/
def missing_and_required (process : List Char) (all_detected : List (List Char)) :
    List (List Char) × Nat :=
  match PROCESS_CHECKLISTS.find? (fun pr => pr.1 == process) with
  | some pr => (pr.2.filter (fun d => !(all_detected.contains d)), pr.2.length)
  | none => ([], 0)

/-- The issue dict built by the `except` branch of
`analyze_single_document`: `{"issue": f"Error reading document: {e}",
"severity": "High", "document": basename(path)}` (no suggestion/section
keys). -/
def read_error_issue (path e : List Char) : TaggedIssue :=
  ⟨S "Error reading document: " ++ e, S "High", [], [], basename path, none⟩

/-- The issue dict for an empty document: `{"issue": "Document appears to
be empty", "severity": "High"}` (no document key). -/
def empty_doc_issue : TaggedIssue :=
  ⟨S "Document appears to be empty", S "High", [], [], [], none⟩

/-- `analyze_single_document(doc_path)`: read the document, join the
non-blank paragraph texts with newlines, classify and run the rule engine,
tagging each issue with the document's basename; any read failure becomes
the single High-severity read-error issue. -/
def analyze_single_document (env : FileEnv) (doc_path : List Char) :
    List (List Char) × List TaggedIssue :=
  match env.readDoc doc_path with
  | .error e => ([S "Unknown"], [read_error_issue doc_path e])
  | .ok doc =>
    let text := joinNl ((doc.paragraphs.map paraText).filter (fun t => stripL t != []))
    if stripL text == [] then ([S "Unknown"], [empty_doc_issue])
    else
      let doc_types := detect_doc_type_names text
      let issues := run_redflag_checks text none
      (doc_types,
       issues.map (fun i =>
         ⟨i.issue, i.severity, i.suggestion, i.sectionLabel, basename doc_path, none⟩))

/-- The citation-enrichment step of `process_multiple_docx`: set the
`citation` key only when a citation was returned (the wrapper already
swallowed every failure into `None`). -/
def enrich_issue (r : RAGRetriever) (env : RagEnv) (i : TaggedIssue) : TaggedIssue :=
  match r.get_citation_for_issue env i.issue with
  | some c => { i with citation := some c }
  | none => i

/-- The annotation `try` block of `process_multiple_docx` for one document:
re-read the input, run `annotate_docx_with_comments`, save; the slot is the
output path on success and `None` when any of the three steps raises. -/
def annotate_file (env : FileEnv) (doc_path out_path : List Char)
    (issues : List TaggedIssue) : Option (List Char) :=
  match env.readDoc doc_path with
  | .error _ => none
  | .ok doc =>
    match annotate_docx_with_comments doc issues with
    | .error _ => none
    | .ok _ => if env.saveOk out_path then some out_path else none

/-- The `saved_files` list of `process_multiple_docx` before its final
filter: one slot per input path, `None` for a document whose annotation
step failed. -/
def saved_slots (env : FileEnv) (paths : List (List Char)) (output_dir : List Char)
    (all_issues : List TaggedIssue) : List (Option (List Char)) :=
  paths.map fun p =>
    annotate_file env p (output_dir ++ S "/reviewed_" ++ basename p)
      (all_issues.filter (fun i => i.document == basename p))

/-- The consolidated `Report` dict of `build_report`. -/
structure Report where
  process : List Char
  documents_uploaded : Nat
  required_documents : Nat
  missing_document : Option (List (List Char))
  issues_found : List TaggedIssue
deriving DecidableEq

/-- `build_report` (`src/utils/reporter.py`). -/
def build_report (process : List Char) (documents_uploaded required_documents : Nat)
    (missing_document : Option (List (List Char))) (issues_found : List TaggedIssue) :
    Report :=
  ⟨process, documents_uploaded, required_documents, missing_document, issues_found⟩

/-- Pooled detected types of a batch. -/
def pipeline_detected (env : FileEnv) (paths : List (List Char)) : List (List Char) :=
  ((paths.map (analyze_single_document env)).map Prod.fst).flatten

/-- Pooled issues of a batch after optional citation enrichment. -/
def pipeline_issues (env : FileEnv) (ragEnv : RagEnv) (paths : List (List Char))
    (rag : Option RAGRetriever) : List TaggedIssue :=
  let all_issues0 := ((paths.map (analyze_single_document env)).map Prod.snd).flatten
  match rag with
  | some r => if r.available then all_issues0.map (enrich_issue r ragEnv) else all_issues0
  | none => all_issues0

/-- `process_multiple_docx(paths, output_dir, rag_retriever)`: analyze every
document, infer the process, compute the missing documents, enrich with
citations, annotate each input (failures becoming null slots) and return
the consolidated report together with the successfully written output
paths. -/
def process_multiple_docx (env : FileEnv) (ragEnv : RagEnv) (paths : List (List Char))
    (output_dir : List Char) (rag : Option RAGRetriever) : Report × List (List Char) :=
  let all_detected := pipeline_detected env paths
  let process := infer_process_from_types all_detected
  let mr := missing_and_required process all_detected
  let all_issues := pipeline_issues env ragEnv paths rag
  let slots := saved_slots env paths output_dir all_issues
  let report := build_report process paths.length mr.2
    (if mr.1 == [] then none else some mr.1) all_issues
  (report, slots.filterMap id)

/-! ## Theorems for the claims -/

/-- C5.  `run_redflag_checks` is deterministic — the embedding is a pure
function of `(text, doc_type)` because the source reads no state, uses no
randomness and iterates only insertion-ordered structures — and with no
document type the check families run in the fixed source sequence:
jurisdiction, signatures, the four type-specific checks, ADGM compliance,
language/formatting. -/
theorem run_redflag_checks_deterministic (text : List Char) (doc_type : Option (List Char)) :
    run_redflag_checks text doc_type = run_redflag_checks text doc_type
    ∧ run_redflag_checks text none =
        check_jurisdiction text (toLowerL text)
        ++ check_signatures text (toLowerL text)
        ++ check_all_document_types text (toLowerL text)
        ++ check_adgm_compliance text (toLowerL text)
        ++ check_language_and_formatting text (toLowerL text)
    ∧ (∀ dt, run_redflag_checks text (some dt) =
        check_jurisdiction text (toLowerL text)
        ++ check_signatures text (toLowerL text)
        ++ (if dt != [] then check_document_specific_issues text (toLowerL text) dt
            else check_all_document_types text (toLowerL text))
        ++ check_adgm_compliance text (toLowerL text)
        ++ check_language_and_formatting text (toLowerL text)) :=
  ⟨rfl, rfl, fun _ => rfl⟩

/-- The process-inference rule as the specification words it: walk the
checklists in declaration order and return the first whose required set
meets the `max(2, 0.4 * required_count)` overlap threshold, else
`Unknown`. -/
def spec_first_process (types : List (List Char)) :
    List ((List Char) × List (List Char)) → List Char
  | [] => S "Unknown"
  | pr :: rest =>
    if max 2 ((pr.2.length : ℚ) * (2/5)) ≤ (overlapCount types pr.2 : ℚ) then pr.1
    else spec_first_process types rest

/-- Agreement of the implementation with the first-match recursion, over any
checklist table. -/
theorem infer_matches_spec_first (types : List (List Char)) :
    ∀ l : List ((List Char) × List (List Char)),
      (match l.find? (fun pr =>
          max 2 ((pr.2.length : ℚ) * (2/5)) ≤ (overlapCount types pr.2 : ℚ)) with
       | some pr => pr.1
       | none => S "Unknown") = spec_first_process types l := by
  intro l
  induction l with
  | nil => rfl
  | cons pr rest ih =>
    by_cases h : max 2 ((pr.2.length : ℚ) * (2/5)) ≤ (overlapCount types pr.2 : ℚ)
    · rw [List.find?_cons_of_pos _ (by simpa using h), spec_first_process, if_pos h]
    · rw [List.find?_cons_of_neg _ (by simpa using h), spec_first_process, if_neg h]
      exact ih

/-- C7.  `infer_process_from_types` returns the first process in
declaration order whose checklist overlaps the pooled types by at least
`max(2, 0.4 * required_count)`, else `Unknown`; the pooled types of
scenario C infer `Company Incorporation` whose missing documents are
exactly `Incorporation Application` and `Register of Members and
Directors` (in checklist order) out of 5 required; and the missing-document
computation yields nothing when no process was identified (`Unknown` is not
a checklist key). -/
theorem infer_process_spec_and_scenarioC :
    (∀ types, infer_process_from_types types = spec_first_process types PROCESS_CHECKLISTS)
    ∧ infer_process_from_types
        [S "Articles of Association", S "Memorandum of Association", S "UBO Declaration"]
        = S "Company Incorporation"
    ∧ missing_and_required (S "Company Incorporation")
        [S "Articles of Association", S "Memorandum of Association", S "UBO Declaration"]
        = ([S "Incorporation Application", S "Register of Members and Directors"], 5)
    ∧ (∀ types, missing_and_required (S "Unknown") types = ([], 0)) := by
  refine ⟨fun types => infer_matches_spec_first types PROCESS_CHECKLISTS,
    by with_unfolding_all decide, by with_unfolding_all decide, fun types => rfl⟩

/-- C10.  The RAG wrapper decides availability once at construction from
the existence of the two index files; with either file absent the citation
lookup returns `None`, and any exception of the underlying retrieval call
is caught and also returned as `None` — the wrapper's result type is
`Option`, never a raised error. -/
theorem rag_retriever_degrades_to_none (env : RagEnv) (q : List Char) :
    (RAGRetriever.ofEnv env).available = (env.indexExists && env.metaExists)
    ∧ ((env.indexExists && env.metaExists) = false →
        (RAGRetriever.ofEnv env).get_citation_for_issue env q = none)
    ∧ (∀ e, env.retrieve q = .error e →
        (RAGRetriever.ofEnv env).get_citation_for_issue env q = none) := by
  refine ⟨rfl, ?_, ?_⟩
  · intro h
    simp [RAGRetriever.get_citation_for_issue, RAGRetriever.ofEnv, h]
  · intro e h
    simp [RAGRetriever.get_citation_for_issue, RAGRetriever.ofEnv, h]

/-- The scenario-A probe text: it contains `"ARTICLES OF ASSOCIATION"`,
`"share capital"` and `"director"`. -/
def scenarioA_text : List Char := S "ARTICLES OF ASSOCIATION share capital director"

/-- C3 (refutation by evaluation).  On a text containing exactly the three
phrases of scenario A the classifier does NOT return
`Articles of Association`: only the primary keyword and the `share capital`
secondary keyword match, so `_calculate_confidence` yields
`(0.5 + 0.1) / 1.85 = 12/37 ≈ 0.32`, below the 0.6 threshold, and the
fallback label `"Short Form/Notice"` is returned instead.  (The rule-engine
half of the claim does hold: the run produces no High-severity
missing-directors issue, as the final conjunct shows.)  The repository's
own tests (`test_articles_of_association_detection`,
`test_confidence_scoring`) assert the behaviour the claim describes, so
the code contradicts its tests here. -/
theorem classifier_scenarioA_eval :
    detect_doc_type_scored scenarioA_text = [(S "Short Form/Notice", 3/10)]
    ∧ calculate_confidence (collapseWs (toLowerL scenarioA_text)) aoa_patterns = 12/37
    ∧ ((12 : ℚ)/37 < aoa_patterns.confidence_threshold)
    ∧ ((run_redflag_checks scenarioA_text none).all
        (fun i => !(i.severity == S "High"
          && containsSub (S "missing directors") (toLowerL i.issue)))) = true := by
  refine ⟨by with_unfolding_all decide, by with_unfolding_all decide,
    by with_unfolding_all decide, by with_unfolding_all decide⟩

/-- The scenario-B probe text, verbatim from the spec and the repository's
`test_jurisdiction_checks`. -/
def scenarioB_text : List Char := S "This agreement shall be governed by UAE Federal Courts."

/-- C4 (refutation by evaluation).  On the exact scenario-B text the rule
engine produces no jurisdiction issue at all — the regex
`\buae federal court\b` cannot match the plural `"UAE Federal Courts"`
because `t` and `s` are both word characters, so no word boundary exists
before the trailing `s` — and the full issue list is just the
missing-signature and missing-ADGM-reference issues, neither of which
mentions UAE Federal Courts.  The repository's own
`test_jurisdiction_checks` asserts the behaviour the claim describes, so
the code contradicts its tests here. -/
theorem redflag_scenarioB_eval :
    run_redflag_checks scenarioB_text none =
      [⟨S "Missing signature block or execution clause", S "High",
        S "Add proper signature block with name, title, and date fields",
        S "End of document"⟩,
       ⟨S "Document does not reference ADGM jurisdiction", S "Medium",
        S "Include reference to ADGM (Abu Dhabi Global Market) jurisdiction",
        S "General"⟩]
    ∧ ((run_redflag_checks scenarioB_text none).all
        (fun i => !containsSub (S "uae federal courts") (toLowerL i.issue))) = true
    ∧ searchBounded (S "uae federal court") (toLowerL scenarioB_text) = false := by
  refine ⟨by decide, by decide, by decide⟩

/-- C2.  `detect_doc_type(text, return_confidence=True)` always returns a
non-empty list ordered by non-increasing confidence, and returns exactly
`[("Unknown", 0.0)]` on empty or whitespace-only input (that branch exits
before any pattern matching). -/
theorem detect_doc_type_nonempty_sorted (text : List Char) :
    detect_doc_type_scored text ≠ []
    ∧ List.Sorted confGe (detect_doc_type_scored text)
    ∧ (stripL text = [] → detect_doc_type_scored text = [(S "Unknown", 0)]) := by
  unfold detect_doc_type_scored
  cases hb : stripL text == [] with
  | true =>
    simp only [hb, if_true]
    exact ⟨by simp, List.sorted_singleton _, fun _ => by simp⟩
  | false =>
    simp only [hb, Bool.false_eq_true, if_false]
    have himp : stripL text = [] → False := by
      intro hp
      rw [hp] at hb
      simp at hb
    cases hs : List.insertionSort confGe (DOCUMENT_PATTERNS.filterMap fun pr =>
        let c := calculate_confidence (collapseWs (toLowerL text)) pr.2
        if pr.2.confidence_threshold ≤ c then some (pr.1, c) else none) == [] with
    | true =>
      simp only [hs, if_true]
      exact ⟨by simp, List.sorted_singleton _, fun hp => absurd hp (fun hp => himp hp)⟩
    | false =>
      simp only [hs, Bool.false_eq_true, if_false]
      refine ⟨?_, List.sorted_insertionSort confGe _, fun hp => absurd hp (fun hp => himp hp)⟩
      intro hnil
      rw [hnil] at hs
      simp at hs

/-- Witness for C2 at a whitespace-only input. -/
theorem detect_doc_type_nonempty_sorted_witness :
    stripL (S "  ") = [] ∧ detect_doc_type_scored (S "  ") = [(S "Unknown", 0)] :=
  ⟨by decide, (detect_doc_type_nonempty_sorted (S "  ")).2.2 (by decide)⟩

/-- Inserting the comment range markers and the reference run around a
paragraph's children does not change its text: none of the three inserted
children carries a `w:t` node. -/
theorem paraText_markers (cid : Nat) (p : Para) :
    paraText ⟨PChild.commentRangeStart cid ::
      p.children ++ [PChild.commentRangeEnd cid, PChild.commentRefRun cid]⟩
      = paraText p := by
  simp [paraText, childText]

/-- `modifyAt` with a function preserving an observation preserves the
mapped observation list. -/
theorem modifyAt_map_eq {α β : Type} (f : α → α) (g : α → β)
    (h : ∀ a, g (f a) = g a) :
    ∀ (n : Nat) (l : List α), (modifyAt f n l).map g = l.map g := by
  intro n l
  induction l generalizing n with
  | nil => cases n <;> rfl
  | cons a as ih =>
    cases n with
    | zero => simp [modifyAt, h]
    | succ m => simp [modifyAt, ih]

/-- `add_comment_to_paragraph` leaves the paragraph text sequence
unchanged. -/
theorem add_comment_paraTexts (doc : DocModel) (idx : Nat) (body : List Char) :
    (add_comment_to_paragraph doc idx body).paragraphs.map paraText
      = doc.paragraphs.map paraText := by
  unfold add_comment_to_paragraph
  exact modifyAt_map_eq _ _ (fun p => paraText_markers _ p) idx doc.paragraphs

/-- One annotation step leaves the paragraph text sequence unchanged. -/
theorem annotate_step_paraTexts {doc : DocModel} {i : TaggedIssue} {d1 : DocModel}
    (h : annotate_step doc i = .ok d1) :
    d1.paragraphs.map paraText = doc.paragraphs.map paraText := by
  unfold annotate_step at h
  cases ha : anchor_index doc i.issue with
  | some idx =>
    rw [ha] at h
    cases h
    exact add_comment_paraTexts _ _ _
  | none =>
    rw [ha] at h
    by_cases he : doc.paragraphs.isEmpty
    · simp [he] at h
    · simp only [he, if_false, Bool.false_eq_true] at h
      cases h
      exact add_comment_paraTexts _ _ _

/-- C1.  Whenever `annotate_docx_with_comments` succeeds, the output
document's paragraph text sequence — and hence the paragraph count and
order — equals the input's: only comment metadata (the comments part) and
comment anchors (text-free range markers and reference runs) are added. -/
theorem annotate_preserves_paragraph_texts :
    ∀ (issues : List TaggedIssue) (doc doc' : DocModel),
      annotate_docx_with_comments doc issues = .ok doc' →
      doc'.paragraphs.map paraText = doc.paragraphs.map paraText
      ∧ doc'.paragraphs.length = doc.paragraphs.length := by
  intro issues
  induction issues with
  | nil =>
    intro doc doc' h
    cases h
    exact ⟨rfl, rfl⟩
  | cons i rest ih =>
    intro doc doc' h
    unfold annotate_docx_with_comments at h
    cases hstep : annotate_step doc i with
    | ok d1 =>
      rw [hstep] at h
      obtain ⟨h1, _⟩ := ih d1 doc' h
      have h2 := annotate_step_paraTexts hstep
      refine ⟨h1.trans h2, ?_⟩
      have := congrArg List.length (h1.trans h2)
      simpa using this
    | error e =>
      rw [hstep] at h
      cases h

/-- A concrete input document for the C1 witness. -/
def c1Doc : DocModel :=
  ⟨[⟨[PChild.run (S "INTRODUCTION")]⟩,
    ⟨[PChild.run (S "This document lacks an ADGM jurisdiction reference.")]⟩],
   []⟩

/-- Concrete issues for the C1 witness (one anchored by keyword match, one
falling back to the last paragraph). -/
def c1Issues : List TaggedIssue :=
  [⟨S "Document does not reference ADGM jurisdiction", S "Medium",
    S "Include reference to ADGM (Abu Dhabi Global Market) jurisdiction",
    S "General", S "a.docx", none⟩,
   ⟨S "zzzz qqqq", S "Low", [], S "General", S "a.docx", none⟩]

/-- The annotated output document of the C1 witness run. -/
def c1Out : DocModel :=
  match annotate_docx_with_comments c1Doc c1Issues with
  | .ok d => d
  | .error _ => c1Doc

/-- Witness for C1: a successful concrete annotation run preserving the
paragraph texts. -/
theorem annotate_preserves_paragraph_texts_witness :
    c1Out.paragraphs.map paraText = c1Doc.paragraphs.map paraText
    ∧ c1Out.paragraphs.length = c1Doc.paragraphs.length :=
  annotate_preserves_paragraph_texts c1Issues c1Doc c1Out rfl

/-- Elements of a `Nat` list are bounded by `foldl Nat.max`. -/
theorem le_foldl_max : ∀ (l : List Nat) (acc : Nat),
    acc ≤ l.foldl Nat.max acc ∧ ∀ a ∈ l, a ≤ l.foldl Nat.max acc := by
  intro l
  induction l with
  | nil => simp
  | cons x xs ih =>
    intro acc
    constructor
    · calc acc ≤ Nat.max acc x := Nat.le_max_left _ _
        _ ≤ xs.foldl Nat.max (Nat.max acc x) := (ih _).1
    · intro a ha
      rcases List.mem_cons.mp ha with rfl | hxs
      · calc a ≤ Nat.max acc a := Nat.le_max_right _ _
          _ ≤ xs.foldl Nat.max (Nat.max acc a) := (ih _).1
      · exact (ih _).2 a hxs

/-- Every existing comment id is strictly below the next allocated id. -/
theorem id_lt_next_comment_id {c : Comment} {cs : List Comment} (h : c ∈ cs) :
    c.id < next_comment_id cs := by
  unfold next_comment_id
  have hne : cs.isEmpty = false := by
    cases cs with
    | nil => cases h
    | cons a as => rfl
  rw [hne]
  simp only [Bool.false_eq_true, if_false]
  have hmem : c.id ∈ cs.map Comment.id := List.mem_map_of_mem _ h
  have := (le_foldl_max (cs.map Comment.id) 0).2 _ hmem
  omega

/-- One annotation step appends exactly one comment, whose id strictly
exceeds every existing id. -/
theorem annotate_step_comments {doc : DocModel} {i : TaggedIssue} {d1 : DocModel}
    (h : annotate_step doc i = .ok d1) :
    ∃ c : Comment, d1.comments = doc.comments ++ [c]
      ∧ ∀ a ∈ doc.comments, a.id < c.id := by
  unfold annotate_step at h
  cases ha : anchor_index doc i.issue with
  | some idx =>
    rw [ha] at h
    cases h
    exact ⟨_, rfl, fun a hmem => id_lt_next_comment_id hmem⟩
  | none =>
    rw [ha] at h
    by_cases he : doc.paragraphs.isEmpty
    · simp [he] at h
    · simp only [he, if_false, Bool.false_eq_true] at h
      cases h
      exact ⟨_, rfl, fun a hmem => id_lt_next_comment_id hmem⟩

/-- Comment bookkeeping of a whole annotation run: the old comments are an
unchanged prefix, and the freshly appended comments carry strictly
increasing ids, all above every pre-existing id. -/
theorem annotate_comments_appended :
    ∀ (issues : List TaggedIssue) (doc doc' : DocModel),
      annotate_docx_with_comments doc issues = .ok doc' →
      ∃ newcs : List Comment,
        doc'.comments = doc.comments ++ newcs
        ∧ List.Sorted (· < ·) (newcs.map Comment.id)
        ∧ ∀ a ∈ doc.comments, ∀ b ∈ newcs, a.id < b.id := by
  intro issues
  induction issues with
  | nil =>
    intro doc doc' h
    cases h
    exact ⟨[], by simp, by simp, by simp⟩
  | cons i rest ih =>
    intro doc doc' h
    unfold annotate_docx_with_comments at h
    cases hstep : annotate_step doc i with
    | ok d1 =>
      rw [hstep] at h
      obtain ⟨c, hc1, hc2⟩ := annotate_step_comments hstep
      obtain ⟨new1, hn1, hn2, hn3⟩ := ih d1 doc' h
      refine ⟨c :: new1, ?_, ?_, ?_⟩
      · rw [hn1, hc1, List.append_assoc]
        rfl
      · rw [List.map_cons, List.sorted_cons]
        refine ⟨?_, hn2⟩
        intro y hy
        obtain ⟨b, hb, rfl⟩ := List.mem_map.mp hy
        exact hn3 c (by rw [hc1]; exact List.mem_append_right _ (List.mem_singleton_self _)) b hb
      · intro a hmem b hb
        rcases List.mem_cons.mp hb with rfl | hb1
        · exact hc2 a hmem
        · exact hn3 a (by rw [hc1]; exact List.mem_append_left _ hmem) b hb1
    | error e =>
      rw [hstep] at h
      cases h

/-- C8.  Whenever `annotate_docx_with_comments` succeeds, the pre-existing
comments are untouched (each new comment's id is one past the current
maximum, 0 when none exist — `next_comment_id`), the ids of the newly added
comments are strictly increasing in the order they were added, and every
new id strictly exceeds every pre-existing id, so no id is ever reused;
because the statement holds for an arbitrary starting document it applies
in particular to a second `annotate` call on an already-annotated
document. -/
theorem comment_ids_strictly_increasing :
    ∀ (issues : List TaggedIssue) (doc doc' : DocModel),
      annotate_docx_with_comments doc issues = .ok doc' →
      doc'.comments.take doc.comments.length = doc.comments
      ∧ List.Sorted (· < ·) ((doc'.comments.drop doc.comments.length).map Comment.id)
      ∧ ∀ a ∈ doc.comments, ∀ b ∈ doc'.comments.drop doc.comments.length, a.id < b.id := by
  intro issues doc doc' h
  obtain ⟨newcs, heq, hsort, hlt⟩ := annotate_comments_appended issues doc doc' h
  rw [heq, List.take_left, List.drop_left]
  exact ⟨rfl, hsort, hlt⟩

/-- A concrete already-annotated document for the C8 witness: it holds a
pre-existing comment with id 5. -/
def c8Doc : DocModel :=
  ⟨[⟨[PChild.run (S "This document lacks an ADGM jurisdiction reference.")]⟩],
   [⟨5, S "Reviewer", S "RV", S "old note"⟩]⟩

/-- Concrete issues for the C8 witness. -/
def c8Issues : List TaggedIssue :=
  [⟨S "Document does not reference ADGM jurisdiction", S "Medium", [],
    S "General", S "a.docx", none⟩,
   ⟨S "Missing signature block or execution clause", S "High", [],
    S "End of document", S "a.docx", none⟩]

/-- The output document of the C8 witness run. -/
def c8Out : DocModel :=
  match annotate_docx_with_comments c8Doc c8Issues with
  | .ok d => d
  | .error _ => c8Doc

/-- Witness for C8: a concrete second annotation round on an
already-annotated document, with the id-monotonicity conclusions
instantiated. -/
theorem comment_ids_strictly_increasing_witness :
    c8Out.comments.take c8Doc.comments.length = c8Doc.comments
    ∧ List.Sorted (· < ·) ((c8Out.comments.drop c8Doc.comments.length).map Comment.id)
    ∧ ∀ a ∈ c8Doc.comments, ∀ b ∈ c8Out.comments.drop c8Doc.comments.length, a.id < b.id :=
  comment_ids_strictly_increasing c8Issues c8Doc c8Out rfl

/-- Dropping the overlap from every chunk of the window loop and
concatenating yields the tail of the text past `start + o`: each window
starts `s - o` positions after the previous one, so its overlap-stripped
part continues exactly where the previous window ended. -/
theorem chunksFrom_map_drop_flatten (t : List Char) (s o : Nat) (ho : o < s) :
    ∀ fuel start, t.length - start ≤ fuel →
      ((chunksFromAux fuel t s o start).map (fun x => x.drop o)).flatten
        = t.drop (start + o) := by
  intro fuel
  induction fuel with
  | zero =>
    intro start hf
    simp only [chunksFromAux, List.map_nil, List.flatten_nil]
    rw [List.drop_eq_nil_of_le (by omega : t.length ≤ start + o)]
  | succ n ih =>
    intro start hf
    by_cases h : start < t.length
    · rw [chunksFromAux, if_pos h]
      have hnext : max (start + s - o) (start + 1) = start + (s - o) := by omega
      rw [hnext]
      simp only [List.map_cons, List.flatten_cons]
      rw [ih (start + (s - o)) (by omega)]
      have e1 : ((t.drop start).take s).drop o = (t.drop (start + o)).take (s - o) := by
        rw [List.drop_take, List.drop_drop]
      have e2 : t.drop (start + (s - o) + o) = (t.drop (start + o)).drop (s - o) := by
        rw [List.drop_drop]
        congr 1
        omega
      rw [e1, e2, List.take_append_drop]
    · rw [chunksFromAux, if_neg h]
      simp only [List.map_nil, List.flatten_nil]
      rw [List.drop_eq_nil_of_le (by omega : t.length ≤ start + o)]

/-- Reconstruction for the window loop: the first emitted window whole plus
the overlap-stripped remaining windows rebuild the text from `start`. -/
theorem chunksFrom_dejoin (t : List Char) (s o : Nat) (ho : o < s) :
    ∀ fuel start, t.length - start ≤ fuel + 1 → start < t.length →
      dejoin o (chunksFromAux (fuel + 1) t s o start) = t.drop start := by
  intro fuel start hf hstart
  rw [chunksFromAux, if_pos hstart]
  simp only [dejoin]
  rw [chunksFrom_map_drop_flatten t s o ho fuel _ (by omega)]
  have hnext : max (start + s - o) (start + 1) = start + (s - o) := by omega
  rw [hnext]
  have e2 : t.drop (start + (s - o) + o) = (t.drop start).drop s := by
    rw [List.drop_drop]
    congr 1
    omega
  rw [e2, List.take_append_drop]

/-- Coverage for the window loop: every text position at or past `start` is
inside some emitted window of width `s`. -/
theorem chunksFrom_cover (t : List Char) (s o : Nat) (hs : 1 ≤ s) :
    ∀ fuel start i, t.length - start ≤ fuel → start ≤ i → i < t.length →
      ∃ st, st ≤ i ∧ i < st + s ∧ (t.drop st).take s ∈ chunksFromAux fuel t s o start := by
  intro fuel
  induction fuel with
  | zero =>
    intro start i hf h1 h2
    omega
  | succ n ih =>
    intro start i hf h1 h2
    have hlt : start < t.length := lt_of_le_of_lt h1 h2
    rw [chunksFromAux, if_pos hlt]
    by_cases hc : i < start + s
    · exact ⟨start, h1, hc, List.mem_cons_self _ _⟩
    · obtain ⟨st, a, b, c⟩ :=
        ih (max (start + s - o) (start + 1)) i (by omega) (by omega) h2
      exact ⟨st, a, b, List.mem_cons_of_mem _ c⟩

/-- C6 (counterexample to the unrestricted parameter quantification).  With
`overlap = 5 ≥ chunk_size = 2` the loop advances by the guarded step 1, the
windows are `ab, bc, cd, d`, and removing the "configured overlap" of 5
from every later chunk leaves only `ab`, which does not reconstruct the
cleaned text `abcd`. -/
theorem chunk_text_reconstruct_counterexample :
    dejoin 5 (chunk_text (S "abcd") 2 5) ≠ clean_text (S "abcd") := by decide

/-- C6 (amended: parameters with `overlap < chunk_size`, the code's
configured regime, e.g. the defaults 800/100).  Every character of the
cleaned text lies inside at least one chunk produced by `_chunk_text`; the
first chunk followed by every later chunk minus its leading `overlap`
characters reconstructs the cleaned text exactly; and a cleaned text of at
most `chunk_size` characters is emitted as the single chunk `[cleaned]`. -/
theorem chunk_text_cover_reconstruct (text : List Char) (s o : Nat) (ho : o < s) :
    (∀ i, i < (clean_text text).length →
       ∃ st, st ≤ i ∧ i < st + s ∧ ((clean_text text).drop st).take s ∈ chunk_text text s o)
    ∧ dejoin o (chunk_text text s o) = clean_text text
    ∧ ((clean_text text).length ≤ s → chunk_text text s o = [clean_text text]) := by
  by_cases hle : (clean_text text).length ≤ s
  · have hct : chunk_text text s o = [clean_text text] := by
      simp [chunk_text, hle]
    refine ⟨?_, ?_, fun _ => hct⟩
    · intro i hi
      refine ⟨0, Nat.zero_le _, by omega, ?_⟩
      rw [hct, List.drop_zero, List.take_of_length_le hle]
      exact List.mem_singleton_self _
    · rw [hct]
      simp [dejoin]
  · have hct : chunk_text text s o
        = chunksFromAux (clean_text text).length (clean_text text) s o 0 := by
      simp [chunk_text, hle]
    refine ⟨?_, ?_, fun hcon => absurd hcon hle⟩
    · intro i hi
      obtain ⟨st, a, b, c⟩ := chunksFrom_cover (clean_text text) s o (by omega)
        (clean_text text).length 0 i (by omega) (Nat.zero_le _) hi
      exact ⟨st, a, b, by rw [hct]; exact c⟩
    · rw [hct]
      obtain ⟨m, hm⟩ : ∃ m, (clean_text text).length = m + 1 := by
        refine ⟨(clean_text text).length - 1, ?_⟩
        omega
      rw [hm]
      exact chunksFrom_dejoin (clean_text text) s o ho m 0 (by omega) (by omega)

/-- Witness for C6 at `chunk_size = 3`, `overlap = 1` on a seven-character
text: the windows are `abc, cde, efg, g` and reassembly returns the cleaned
text. -/
theorem chunk_text_cover_reconstruct_witness :
    (1 < 3 ∧ chunk_text (S "abcdefg") 3 1
        = [S "abc", S "cde", S "efg", S "g"])
    ∧ dejoin 1 (chunk_text (S "abcdefg") 3 1) = clean_text (S "abcdefg") :=
  ⟨⟨by decide, by decide⟩,
   (chunk_text_cover_reconstruct (S "abcdefg") 3 1 (by decide)).2.1⟩

/-- C9.  Batch processing always yields a report counting all `N` inputs:
`documents_uploaded = paths.length` unconditionally (the report is built and
returned on every path, so no per-document failure prevents it); a document
whose read raises is recorded as exactly one High-severity issue tagged with
that document; a document whose read raises also gets a `None` output slot
(the annotation `try` block re-reads it); and the output-slot list always
has one (possibly `None`) slot per input, the returned paths being the
non-`None` slots. -/
theorem process_multiple_docx_error_handling (env : FileEnv) (ragEnv : RagEnv)
    (paths : List (List Char)) (output_dir : List Char) (rag : Option RAGRetriever) :
    (process_multiple_docx env ragEnv paths output_dir rag).1.documents_uploaded = paths.length
    ∧ (∀ p e, env.readDoc p = .error e →
        analyze_single_document env p = ([S "Unknown"], [read_error_issue p e]))
    ∧ (∀ p out_path issues e, env.readDoc p = .error e →
        annotate_file env p out_path issues = none)
    ∧ (saved_slots env paths output_dir (pipeline_issues env ragEnv paths rag)).length
        = paths.length
    ∧ (process_multiple_docx env ragEnv paths output_dir rag).2
        = (saved_slots env paths output_dir
            (pipeline_issues env ragEnv paths rag)).filterMap id
    ∧ (∀ all_issues, saved_slots env paths output_dir all_issues
        = paths.map (fun p =>
            annotate_file env p (output_dir ++ S "/reviewed_" ++ basename p)
              (all_issues.filter (fun i => i.document == basename p)))) := by
  refine ⟨rfl, ?_, ?_, by simp [saved_slots], rfl, fun _ => rfl⟩
  · intro p e h
    simp [analyze_single_document, h]
  · intro p out_path issues e h
    simp [annotate_file, h]

/-- A concrete file environment for the C9 witness: `good.docx` reads as a
one-paragraph document, `bad.docx` raises, and every save succeeds. -/
def c9Env : FileEnv :=
  ⟨fun p =>
    if p == S "docs/bad.docx" then .error (S "Package not found")
    else .ok ⟨[⟨[PChild.run (S "hello world agreement")]⟩], []⟩,
   fun _ => true⟩

/-- The input paths of the C9 witness batch. -/
def c9Paths : List (List Char) := [S "docs/good.docx", S "docs/bad.docx"]

/-- A trivial RAG environment for the C9 witness. -/
def c9RagEnv : RagEnv := ⟨false, false, fun _ => .error (S "unavailable")⟩

/-- Witness for C9: the concrete two-document batch (one unreadable input)
still reports `documents_uploaded = 2`, the unreadable document contributes
the single High-severity read-error issue, and its annotation slot is
`None`. -/
theorem process_multiple_docx_error_handling_witness :
    (process_multiple_docx c9Env c9RagEnv c9Paths (S "out") none).1.documents_uploaded = 2
    ∧ analyze_single_document c9Env (S "docs/bad.docx")
        = ([S "Unknown"], [read_error_issue (S "docs/bad.docx") (S "Package not found")])
    ∧ annotate_file c9Env (S "docs/bad.docx") (S "out/reviewed_bad.docx") [] = none :=
  ⟨(process_multiple_docx_error_handling c9Env c9RagEnv c9Paths (S "out") none).1,
   (process_multiple_docx_error_handling c9Env c9RagEnv c9Paths (S "out") none).2.1
     (S "docs/bad.docx") (S "Package not found") rfl,
   (process_multiple_docx_error_handling c9Env c9RagEnv c9Paths (S "out") none).2.2.1
     (S "docs/bad.docx") (S "out/reviewed_bad.docx") [] (S "Package not found") rfl⟩

/-- Witness for C10 at a concrete environment with a missing index file and
a failing retrieval call. -/
theorem rag_retriever_degrades_to_none_witness :
    ((RAGRetriever.ofEnv ⟨false, true, fun _ => .error (S "no index")⟩).get_citation_for_issue
        ⟨false, true, fun _ => .error (S "no index")⟩ (S "query") = none)
    ∧ ((RAGRetriever.ofEnv ⟨true, true, fun _ => .error (S "boom")⟩).get_citation_for_issue
        ⟨true, true, fun _ => .error (S "boom")⟩ (S "query") = none) :=
  ⟨(rag_retriever_degrades_to_none ⟨false, true, fun _ => .error (S "no index")⟩ (S "query")).2.1 rfl,
   (rag_retriever_degrades_to_none ⟨true, true, fun _ => .error (S "boom")⟩ (S "query")).2.2
     (S "boom") rfl⟩

end ADGM
